import Mathlib

/-!
Verification development for the QuadCraft tetrahedral ("quadray") voxel
engine core: the lattice coordinate system (`src/core/coordinate/Quadray.h`,
`Vector3.h`), the chunk store (`src/core/world/TetraChunk.h`, `.cpp`), the
world manager (`src/core/world/World.h`) and the mesh extractor
(`src/render/mesh/ChunkMesher.cpp`).

Modelling conventions, used uniformly below:

* C++ `float` values are modelled as exact rationals (`ℚ`); decimal literals
  of the source are taken at their exact decimal value (e.g.
  `ROOT2 = 1.4142135623730951`, `sqrt2 = 1.414213562` in
  `TetrahedralElement::getVertices`).  IEEE rounding of individual
  operations is not modelled.
* `std::unordered_map` is modelled as an association list together with the
  map's key-equality predicate; iteration order is the list order.  The
  bucket structure of the hash table is not modelled, except where a claim
  is explicitly about the hash function itself.
* `std::hash<float>` is implementation-defined; every real implementation
  (libstdc++, libc++, MSVC) hashes the value's bit pattern, so distinct
  float values receive distinct hashes (up to engineered collisions).  We
  model it by an injective function on `ℚ`.
* `(int)std::floor(x)` is `Int.floor`; integer division `CHUNK_SIZE / 2`
  is exact here (`16 / 2 = 8`).
* `Vector3::normalized()` (division by the Euclidean length) appears in the
  source only in compositions whose value is exactly expressible without
  the irrational square root: in `TetraChunk::getNeighbors` the expression
  `center + dir.normalized() * 2 * dir.length()` equals `center + dir * 2`
  (also when `dir = 0`, since `normalized()` returns `0` there), and the
  mesh extractor's face normal `edge1.cross(edge2).normalized()` is kept
  as the unnormalized cross product (the sign test
  `normal.dot(toOpposite) > 0` that flips it is invariant under positive
  scaling, and no property below depends on the normal's magnitude).
* The procedural terrain generator (`TerrainGenerator.h`) is pluggable and
  out of the verified core's scope (its noise is built from `std::sin`);
  chunk generation is therefore a parameter `gen` mapping chunk
  coordinates to the element list it materializes.
-/

namespace QuadCraft

/-- Euclidean 3-vector (`Vector3.h`), components modelled as exact
rationals. -/
structure Vector3 where
  x : ℚ
  y : ℚ
  z : ℚ
deriving DecidableEq

instance : Add Vector3 := ⟨fun v w => ⟨v.x + w.x, v.y + w.y, v.z + w.z⟩⟩

instance : Sub Vector3 := ⟨fun v w => ⟨v.x - w.x, v.y - w.y, v.z - w.z⟩⟩

/-- `Vector3::operator*(float)` — scalar multiplication on the right. -/
def Vector3.smul (v : Vector3) (s : ℚ) : Vector3 :=
  ⟨v.x * s, v.y * s, v.z * s⟩

/-- `Vector3::operator/(float)` — scalar division. -/
def Vector3.sdiv (v : Vector3) (s : ℚ) : Vector3 :=
  ⟨v.x / s, v.y / s, v.z / s⟩

/-- `Vector3::lengthSquared`. -/
def Vector3.lengthSquared (v : Vector3) : ℚ :=
  v.x * v.x + v.y * v.y + v.z * v.z

/-- `Vector3::dot`. -/
def Vector3.dot (v w : Vector3) : ℚ :=
  v.x * w.x + v.y * w.y + v.z * w.z

/-- `Vector3::cross`. -/
def Vector3.cross (v w : Vector3) : Vector3 :=
  ⟨v.y * w.z - v.z * w.y, v.z * w.x - v.x * w.z, v.x * w.y - v.y * w.x⟩

/-- Quadray (lattice) coordinate: four components (`Quadray.h`). -/
structure Quadray where
  a : ℚ
  b : ℚ
  c : ℚ
  d : ℚ
deriving DecidableEq

/-- The constant `ROOT2 = 1.4142135623730951f` of `Quadray.h`, at its exact
decimal value. -/
def ROOT2 : ℚ := 14142135623730951 / 10000000000000000

/-- `Quadray::normalized`: subtract `std::min({a,b,c,d})` from every
component (zero-minimum normalization). -/
def Quadray.normalized (q : Quadray) : Quadray :=
  let minVal := min (min (min q.a q.b) q.c) q.d
  ⟨q.a - minVal, q.b - minVal, q.c - minVal, q.d - minVal⟩

/-- The minimum of the four components (the value `std::min({a,b,c,d})`
computed inside `Quadray::normalized`). -/
def Quadray.minComp (q : Quadray) : ℚ :=
  min (min (min q.a q.b) q.c) q.d

/-- `Quadray::toCartesian`. -/
def Quadray.toCartesian (q : Quadray) : Vector3 :=
  let scale : ℚ := 1 / ROOT2
  ⟨scale * (q.a - q.b - q.c + q.d),
   scale * (q.a - q.b + q.c - q.d),
   scale * (q.a + q.b - q.c - q.d)⟩

/-- `Quadray::fromCartesian`: inverse conversion followed by
normalization. -/
def Quadray.fromCartesian (v : Vector3) : Quadray :=
  let scale : ℚ := 1 / ROOT2
  let a := scale * (max 0 v.x + max 0 v.y + max 0 v.z)
  let b := scale * (max 0 (-v.x) + max 0 (-v.y) + max 0 v.z)
  let c := scale * (max 0 (-v.x) + max 0 v.y + max 0 (-v.z))
  let d := scale * (max 0 v.x + max 0 (-v.y) + max 0 (-v.z))
  Quadray.normalized ⟨a, b, c, d⟩

/-- `Quadray::operator+`: component-wise sum, re-normalized. -/
def Quadray.add (q r : Quadray) : Quadray :=
  Quadray.normalized ⟨q.a + r.a, q.b + r.b, q.c + r.c, q.d + r.d⟩

/-- The exact round-trip factor: `toCartesian ∘ fromCartesian` multiplies
every component by `2 * (1/ROOT2)^2` (which is close to, but not exactly,
`1`, because `ROOT2` is a decimal approximation of `√2`). -/
def roundtripFactor : ℚ := 2 * (1 / ROOT2) * (1 / ROOT2)

theorem max_zero_eq_half (t : ℚ) : max 0 t = (t + |t|) / 2 := by
  rcases le_total 0 t with h | h
  · rw [max_eq_right h, abs_of_nonneg h]; ring
  · rw [max_eq_left h, abs_of_nonpos h]; ring

theorem toCartesian_normalized (q : Quadray) :
    q.normalized.toCartesian = q.toCartesian := by
  simp only [Quadray.normalized, Quadray.toCartesian]
  refine congrArg₂ (fun p r => Vector3.mk p r.1 r.2) ?_ (congrArg₂ Prod.mk ?_ ?_) <;> ring

theorem fromCartesian_toCartesian (v : Vector3) :
    (Quadray.fromCartesian v).toCartesian =
      ⟨roundtripFactor * v.x, roundtripFactor * v.y, roundtripFactor * v.z⟩ := by
  rw [Quadray.fromCartesian, toCartesian_normalized]
  simp only [Quadray.toCartesian, roundtripFactor]
  rw [max_zero_eq_half v.x, max_zero_eq_half v.y, max_zero_eq_half v.z,
      max_zero_eq_half (-v.x), max_zero_eq_half (-v.y), max_zero_eq_half (-v.z),
      abs_neg, abs_neg, abs_neg]
  refine congrArg₂ (fun p r => Vector3.mk p r.1 r.2) ?_ (congrArg₂ Prod.mk ?_ ?_) <;> ring

theorem minComp_normalized (q : Quadray) : q.normalized.minComp = 0 := by
  simp only [Quadray.normalized, Quadray.minComp, min_sub_sub_right]
  ring

theorem normalized_idem (q : Quadray) : q.normalized.normalized = q.normalized := by
  have h := minComp_normalized q
  simp only [Quadray.minComp] at h
  simp only [Quadray.normalized] at h ⊢
  rw [h]
  simp

/-- C8: `normalize` always produces a coordinate whose minimum component is
`0` and is idempotent; `fromCartesian` normalizes before returning, so every
coordinate it produces is canonical, and the origin maps to `(0,0,0,0)`. -/
theorem normalize_canonical_and_fromCartesian_normalized :
    (∀ q : Quadray, q.normalized.minComp = 0) ∧
    (∀ q : Quadray, q.normalized.normalized = q.normalized) ∧
    (∀ v : Vector3, Quadray.fromCartesian v = (Quadray.fromCartesian v).normalized) ∧
    Quadray.fromCartesian ⟨0, 0, 0⟩ = ⟨0, 0, 0, 0⟩ := by
  refine ⟨minComp_normalized, normalized_idem, ?_, ?_⟩
  · intro v
    rw [Quadray.fromCartesian, normalized_idem]
  · simp [Quadray.fromCartesian, Quadray.normalized]

theorem roundtripFactor_near_one : |roundtripFactor - 1| < 1 / 10 ^ 16 := by
  rw [roundtripFactor, ROOT2]
  norm_num [abs_lt]

theorem roundtrip_component_close (t : ℚ) (ht : |t| ≤ 10 ^ 12) :
    |roundtripFactor * t - t| < 1 / 10 ^ 4 := by
  have h1 : roundtripFactor * t - t = (roundtripFactor - 1) * t := by ring
  rw [h1, abs_mul]
  calc |roundtripFactor - 1| * |t| ≤ |roundtripFactor - 1| * 10 ^ 12 :=
        mul_le_mul_of_nonneg_left ht (abs_nonneg _)
    _ < (1 / 10 ^ 16) * 10 ^ 12 :=
        mul_lt_mul_of_pos_right roundtripFactor_near_one (by norm_num)
    _ = 1 / 10 ^ 4 := by norm_num

/-- C7 (counterexample): the round-trip `fromCartesian` then `toCartesian`
does not reproduce every Euclidean point within tolerance `1e-4`: at
`p = (10^13, 0, 0)` the `x` component is off by more than `1e-4`, because
each component is multiplied by the exact factor `2/ROOT2^2 ≠ 1`. -/
theorem roundtrip_tolerance_counterexample :
    ¬ |((Quadray.fromCartesian ⟨10 ^ 13, 0, 0⟩).toCartesian.x - 10 ^ 13 : ℚ)| < 1 / 10 ^ 4 := by
  rw [fromCartesian_toCartesian]
  rw [roundtripFactor, ROOT2]
  norm_num [abs_lt]

/-- C7 (amended): for every Euclidean point whose components are bounded by
`10^12` in absolute value, converting to lattice coordinates and back
reproduces the point within tolerance `1e-4` in every component
(`fromEuclidean(p).toEuclidean() ≈ p`); the unrestricted claim fails for
points with components of the order `10^13`. -/
theorem roundtrip_within_tolerance_bounded (v : Vector3)
    (hx : |v.x| ≤ 10 ^ 12) (hy : |v.y| ≤ 10 ^ 12) (hz : |v.z| ≤ 10 ^ 12) :
    |((Quadray.fromCartesian v).toCartesian.x - v.x)| < 1 / 10 ^ 4 ∧
    |((Quadray.fromCartesian v).toCartesian.y - v.y)| < 1 / 10 ^ 4 ∧
    |((Quadray.fromCartesian v).toCartesian.z - v.z)| < 1 / 10 ^ 4 := by
  rw [fromCartesian_toCartesian]
  exact ⟨roundtrip_component_close v.x hx, roundtrip_component_close v.y hy,
    roundtrip_component_close v.z hz⟩

/-- C7 (witness): the amended round-trip bound instantiated at the concrete
point `(3, -5, 7)`. -/
theorem roundtrip_within_tolerance_bounded_witness :
    |((Quadray.fromCartesian ⟨3, -5, 7⟩).toCartesian.x - 3 : ℚ)| < 1 / 10 ^ 4 ∧
    |((Quadray.fromCartesian ⟨3, -5, 7⟩).toCartesian.y - (-5) : ℚ)| < 1 / 10 ^ 4 ∧
    |((Quadray.fromCartesian ⟨3, -5, 7⟩).toCartesian.z - 7 : ℚ)| < 1 / 10 ^ 4 :=
  roundtrip_within_tolerance_bounded ⟨3, -5, 7⟩ (by norm_num) (by norm_num) (by norm_num)

/-- `Block::BlockID` (`uint16_t`; all ids used stay far below `2^16`). -/
abbrev BlockID : Type := ℕ

def AIR_BLOCK : BlockID := 0

def STONE_BLOCK : BlockID := 1

def DIRT_BLOCK : BlockID := 2

def GRASS_BLOCK : BlockID := 3

def WATER_BLOCK : BlockID := 4

def SAND_BLOCK : BlockID := 5

/-- `Block::ORE_BLOCK` is referenced (`ChunkMesher.cpp`,
`TerrainGenerator.h`) but never defined in `Block.h`; it is modelled as the
next free id. -/
def ORE_BLOCK : BlockID := 6

/-- `Block` (`Block.h`). -/
structure Block where
  id : BlockID
  transparent : Bool
  solid : Bool
  name : String
deriving DecidableEq

/-- The default-constructed `Block()` — the air block. -/
def airBlockDef : Block := ⟨AIR_BLOCK, true, false, "air"⟩

/-- `BlockRegistry`: `unordered_map<BlockID, Block>` as an association
list. -/
structure BlockRegistry where
  blocks : List (BlockID × Block)
deriving DecidableEq

/-- `BlockRegistry::registerBlock` (`blocks[block.id] = block`): overwrite
the entry if the id is present, insert otherwise. -/
def BlockRegistry.registerBlock (r : BlockRegistry) (bl : Block) : BlockRegistry :=
  if r.blocks.any (fun p => p.1 == bl.id) then
    ⟨r.blocks.map (fun p => if p.1 == bl.id then (p.1, bl) else p)⟩
  else
    ⟨r.blocks ++ [(bl.id, bl)]⟩

/-- `BlockRegistry::getBlock`: lookup with the air block as fallback for
unknown ids (`blocks.at(Block::AIR_BLOCK)`; the constructor always
registers air, so the fallback is total). -/
def BlockRegistry.getBlock (r : BlockRegistry) (id : BlockID) : Block :=
  match r.blocks.find? (fun p => p.1 == id) with
  | some p => p.2
  | none =>
    match r.blocks.find? (fun p => p.1 == AIR_BLOCK) with
    | some p => p.2
    | none => airBlockDef

/-- The `BlockRegistry()` constructor: the six default blocks, in
registration order. -/
def defaultRegistry : BlockRegistry :=
  ((((((⟨[]⟩ : BlockRegistry).registerBlock airBlockDef).registerBlock
      ⟨STONE_BLOCK, false, true, "stone"⟩).registerBlock
      ⟨DIRT_BLOCK, false, true, "dirt"⟩).registerBlock
      ⟨GRASS_BLOCK, false, true, "grass"⟩).registerBlock
      ⟨WATER_BLOCK, true, false, "water"⟩).registerBlock
      ⟨SAND_BLOCK, false, true, "sand"⟩

/-- `TetrahedralElement`: lattice position plus block id
(`TetrahedralElement.h`). -/
structure TetrahedralElement where
  position : Quadray
  blockId : BlockID
deriving DecidableEq

/-- The `TetrahedralElement(pos, id)` constructor normalizes the stored
position. -/
def TetrahedralElement.make (pos : Quadray) (id : BlockID) : TetrahedralElement :=
  ⟨pos.normalized, id⟩

/-- `TetrahedralElement::getVertices`: four Euclidean vertices around the
element's center; `sqrt2 = 1.414213562f` at its exact decimal value. -/
def TetrahedralElement.getVertices (e : TetrahedralElement) : Fin 4 → Vector3 :=
  let center := e.position.toCartesian
  let size : ℚ := 1 / 2
  let sqrt2 : ℚ := 1414213562 / 1000000000
  fun i =>
    match i with
    | 0 => center + ⟨0, size, 0⟩
    | 1 => center + ⟨2 * size / 3, -size / 3, 0⟩
    | 2 => center + ⟨-size / 3, -size / 3, sqrt2 * size / 3⟩
    | 3 => center + ⟨-size / 3, -size / 3, -sqrt2 * size / 3⟩

/-- `TetrahedralElement::getFaces`: the fixed vertex-index triples
`{0,1,2}, {0,2,3}, {0,3,1}, {1,3,2}`. -/
def TetrahedralElement.getFaces : Fin 4 → Fin 3 → Fin 4 :=
  fun i j =>
    match i, j with
    | 0, 0 => 0 | 0, 1 => 1 | 0, 2 => 2
    | 1, 0 => 0 | 1, 1 => 2 | 1, 2 => 3
    | 2, 0 => 0 | 2, 1 => 3 | 2, 2 => 1
    | 3, 0 => 1 | 3, 1 => 3 | 3, 2 => 2

/-- `QuadrayEqual::operator()` (`TetraChunk.h`): normalize both
coordinates, then compare all four components with absolute tolerance
`epsilon = 1e-5`. -/
def quadrayEqual (q1 q2 : Quadray) : Bool :=
  let n1 := q1.normalized
  let n2 := q2.normalized
  let epsilon : ℚ := 1 / 100000
  decide (|n1.a - n2.a| < epsilon ∧ |n1.b - n2.b| < epsilon ∧
    |n1.c - n2.c| < epsilon ∧ |n1.d - n2.d| < epsilon)

/-- Model of `std::hash<float>` (implementation-defined; every mainstream
implementation hashes the value's bit pattern, so distinct values receive
distinct hashes): an injective encoding of the rational standing for the
float value. -/
def stdHashFloat (x : ℚ) : ℕ :=
  Nat.pair x.num.natAbs (Nat.pair (if x.num < 0 then 1 else 0) x.den)

/-- `QuadrayHash::operator()` (`TetraChunk.h`): hash each component of the
normalized coordinate and combine with xor-shift; `std::size_t` arithmetic
is modulo `2^64`. -/
def quadrayHash (q : Quadray) : ℕ :=
  let n := q.normalized
  let h1 := stdHashFloat n.a
  let h2 := stdHashFloat n.b
  let h3 := stdHashFloat n.c
  let h4 := stdHashFloat n.d
  (h1 ^^^ (h2 <<< 1) ^^^ (h3 <<< 2) ^^^ (h4 <<< 3)) % 2 ^ 64

/-- `TetraChunk::CHUNK_SIZE = 16`. -/
def CHUNK_SIZE : ℤ := 16

/-- `TetraChunk::CHUNK_GENERATION_RADIUS = 4`. -/
def CHUNK_GENERATION_RADIUS : ℤ := 4

/-- `TetraChunk::CHUNK_UNLOAD_DISTANCE = 8 * CHUNK_SIZE`. -/
def CHUNK_UNLOAD_DISTANCE : ℤ := 8 * CHUNK_SIZE

/-- `TetraChunk` (`TetraChunk.h`): chunk coordinates, quadray position,
state flags and the sparse element map (an association list in iteration
order, keyed by `QuadrayEqual`). -/
structure TetraChunk where
  chunkX : ℤ
  chunkY : ℤ
  chunkZ : ℤ
  position : Quadray
  isDirty : Bool
  isGenerated : Bool
  isVisible : Bool
  elements : List (Quadray × TetrahedralElement)
deriving DecidableEq

/-- The `TetraChunk(int x, int y, int z)` constructor. -/
def TetraChunk.new (x y z : ℤ) : TetraChunk :=
  { chunkX := x, chunkY := y, chunkZ := z,
    position := ⟨(x * CHUNK_SIZE : ℤ), (y * CHUNK_SIZE : ℤ), (z * CHUNK_SIZE : ℤ), 0⟩,
    isDirty := true, isGenerated := false, isVisible := false, elements := [] }

/-- `TetraChunk::getBlock`: `elements.find(quadPos)` under the map's
`QuadrayEqual` predicate; missing key yields air. -/
def TetraChunk.getBlock (ch : TetraChunk) (quadPos : Quadray) : BlockID :=
  match ch.elements.find? (fun e => quadrayEqual e.1 quadPos) with
  | some e => e.2.blockId
  | none => AIR_BLOCK

/-- `TetraChunk::setBlock`: erase the entry when setting air, otherwise
insert or overwrite `TetrahedralElement(quadPos, blockId)`; always sets
`isDirty`. -/
def TetraChunk.setBlock (ch : TetraChunk) (quadPos : Quadray) (blockId : BlockID) :
    TetraChunk :=
  if blockId = AIR_BLOCK then
    { ch with
      elements := ch.elements.filter (fun e => !quadrayEqual e.1 quadPos),
      isDirty := true }
  else
    { ch with
      elements :=
        if ch.elements.any (fun e => quadrayEqual e.1 quadPos) then
          ch.elements.map (fun e =>
            if quadrayEqual e.1 quadPos then (e.1, TetrahedralElement.make quadPos blockId)
            else e)
        else
          ch.elements ++ [(quadPos, TetrahedralElement.make quadPos blockId)],
      isDirty := true }

/-- `TetraChunk::worldToChunkSpace`: to Cartesian, subtract the chunk
origin per axis, back to quadray. -/
def TetraChunk.worldToChunkSpace (ch : TetraChunk) (worldPos : Quadray) : Quadray :=
  let cartesian := worldPos.toCartesian
  Quadray.fromCartesian
    ⟨cartesian.x - ch.chunkX * CHUNK_SIZE,
     cartesian.y - ch.chunkY * CHUNK_SIZE,
     cartesian.z - ch.chunkZ * CHUNK_SIZE⟩

/-- `TetraChunk::chunkToWorldSpace`: to Cartesian, add the chunk origin per
axis, back to quadray. -/
def TetraChunk.chunkToWorldSpace (ch : TetraChunk) (localPos : Quadray) : Quadray :=
  let cartesian := localPos.toCartesian
  Quadray.fromCartesian
    ⟨cartesian.x + ch.chunkX * CHUNK_SIZE,
     cartesian.y + ch.chunkY * CHUNK_SIZE,
     cartesian.z + ch.chunkZ * CHUNK_SIZE⟩

/-- `TetraChunk::getCenter`: `(position + Quadray(8,8,8,8)).toCartesian()`
with `8 = CHUNK_SIZE / 2`; note `Quadray::operator+` re-normalizes. -/
def TetraChunk.getCenter (ch : TetraChunk) : Vector3 :=
  (ch.position.add ⟨8, 8, 8, 8⟩).toCartesian

/-- A chunk-coordinate key, `std::tuple<int,int,int>`. -/
abbrev ChunkKey : Type := ℤ × ℤ × ℤ

/-- Chunk generation parameter standing for the pluggable terrain
generator (`TerrainGenerator::generateChunk` is out of the verified core's
scope, see the header): given the chunk coordinates it returns the element
list the generator materializes in that chunk. -/
abbrev GenFun : Type := ChunkKey → List (Quadray × TetrahedralElement)

/-- `World` (`World.h`): the loaded chunks keyed by integer chunk
coordinates (an association list in iteration order) plus the block
registry. -/
structure World where
  blockRegistry : BlockRegistry
  chunks : List (ChunkKey × TetraChunk)

/-- A freshly constructed `World()` (no chunks, default registry). -/
def World.empty : World := ⟨defaultRegistry, []⟩

/-- Map lookup `chunks.find(coords)`. -/
def World.findChunk (w : World) (key : ChunkKey) : Option TetraChunk :=
  Option.map (fun p => p.2) (w.chunks.find? (fun p => p.1 == key))

/-- `World::hasChunk`. -/
def World.hasChunk (w : World) (x y z : ℤ) : Bool :=
  (w.findChunk (x, y, z)).isSome

/-- Replace the chunk stored under `key` (models mutation through the
`shared_ptr` held in the map). -/
def World.updateChunk (w : World) (key : ChunkKey) (f : TetraChunk → TetraChunk) : World :=
  { w with chunks := w.chunks.map (fun p => if p.1 == key then (p.1, f p.2) else p) }

/-- `World::getChunk(int,int,int)`: return the stored chunk, creating and
inserting a fresh (ungenerated) one if absent. -/
def World.getChunkXYZ (w : World) (x y z : ℤ) : World × TetraChunk :=
  match w.findChunk (x, y, z) with
  | some ch => (w, ch)
  | none =>
    let ch := TetraChunk.new x y z
    ({ w with chunks := w.chunks ++ [((x, y, z), ch)] }, ch)

/-- `World::worldToChunkCoords`: `floor(component / CHUNK_SIZE)` per axis
of a Euclidean position. -/
def worldToChunkCoords (worldPos : Vector3) : ChunkKey :=
  (⌊worldPos.x / (CHUNK_SIZE : ℚ)⌋, ⌊worldPos.y / (CHUNK_SIZE : ℚ)⌋,
   ⌊worldPos.z / (CHUNK_SIZE : ℚ)⌋)

/-- `World::getBlock(worldPos)`: chunk key from the Euclidean projection;
missing chunk yields air; otherwise delegate to the chunk at the local
coordinate. -/
def World.getBlock (w : World) (worldPos : Quadray) : BlockID :=
  let cartesian := worldPos.toCartesian
  let key := worldToChunkCoords cartesian
  match w.findChunk key with
  | none => AIR_BLOCK
  | some chunk => chunk.getBlock (chunk.worldToChunkSpace worldPos)

/-- `World::setBlock(worldPos, id)`: chunk key from the Euclidean
projection, get-or-create the chunk, set the block at the local
coordinate. -/
def World.setBlock (w : World) (worldPos : Quadray) (blockId : BlockID) : World :=
  let cartesian := worldPos.toCartesian
  let key := worldToChunkCoords cartesian
  let wch := w.getChunkXYZ key.1 key.2.1 key.2.2
  let localPos := wch.2.worldToChunkSpace worldPos
  wch.1.updateChunk key (fun ch => ch.setBlock localPos blockId)

/-- The chunk key used by `World::getOrCreateChunk`, `World::unloadChunk`
and `World::getChunk(const Quadray&)`: `floor(component / CHUNK_SIZE)`
applied to the quadray components `a`, `b`, `c` directly (not to the
Euclidean projection). -/
def quadrayChunkKey (quadPos : Quadray) : ChunkKey :=
  (⌊quadPos.a / (CHUNK_SIZE : ℚ)⌋, ⌊quadPos.b / (CHUNK_SIZE : ℚ)⌋,
   ⌊quadPos.c / (CHUNK_SIZE : ℚ)⌋)

/-- `World::getOrCreateChunk(quadPos)`: key from the quadray components;
if absent, create the chunk, insert it, and run the terrain generator
synchronously (`TetraChunk::generate` fills the elements and sets
`isGenerated` and `isDirty`). -/
def World.getOrCreateChunk (gen : GenFun) (w : World) (quadPos : Quadray) :
    World × TetraChunk :=
  let key := quadrayChunkKey quadPos
  match w.findChunk key with
  | some ch => (w, ch)
  | none =>
    let ch := TetraChunk.new key.1 key.2.1 key.2.2
    let ch := { ch with elements := gen key, isGenerated := true, isDirty := true }
    ({ w with chunks := w.chunks ++ [(key, ch)] }, ch)

/-- `chunks.erase(coords)`: remove the entry stored under `key`. -/
def World.eraseChunkKey (w : World) (key : ChunkKey) : World :=
  { w with chunks := w.chunks.filter (fun p => !(p.1 == key)) }

/-- `World::unloadChunk(quadPos)`: erase the chunk keyed by the quadray
components. -/
def World.unloadChunk (w : World) (quadPos : Quadray) : World :=
  w.eraseChunkKey (quadrayChunkKey quadPos)

/-- `World::getChunk(const Quadray&) const`: lookup (without creation) by
the quadray-component key. -/
def World.getChunkByQuad (w : World) (quadPos : Quadray) : Option TetraChunk :=
  w.findChunk (quadrayChunkKey quadPos)

/-- The signed integer range `-r, ..., r` of the generation loops. -/
def signedRange (r : ℤ) : List ℤ :=
  (List.range (2 * r + 1).toNat).map (fun i => -r + (i : ℤ))

/-- `World::generateChunksAround(center, radius)`: snap `center` to the
chunk grid on all four quadray axes, widen the radius when the player is
far from the origin (the float comparisons `length() > 100` and `> 200`
are modelled by the equivalent squared comparisons), then call
`getOrCreateChunk` for every 4-D offset within the radius (the float test
`sqrt(a²+b²+c²+d²) <= r` is equivalently `a²+b²+c²+d² ≤ r²`). -/
def World.generateChunksAround (gen : GenFun) (w : World) (center : Quadray)
    (radius : ℤ) : World :=
  let chunkCoords : Quadray :=
    ⟨(⌊center.a / (CHUNK_SIZE : ℚ)⌋ * CHUNK_SIZE : ℤ),
     (⌊center.b / (CHUNK_SIZE : ℚ)⌋ * CHUNK_SIZE : ℤ),
     (⌊center.c / (CHUNK_SIZE : ℚ)⌋ * CHUNK_SIZE : ℤ),
     (⌊center.d / (CHUNK_SIZE : ℚ)⌋ * CHUNK_SIZE : ℤ)⟩
  let cartPos := center.toCartesian
  let adaptiveRadius :=
    radius + (if cartPos.lengthSquared > 100 ^ 2 then 1 else 0) +
      (if cartPos.lengthSquared > 200 ^ 2 then 1 else 0)
  let r := adaptiveRadius
  let offsets : List (ℤ × ℤ × ℤ × ℤ) :=
    (signedRange r).flatMap (fun a =>
      (signedRange r).flatMap (fun b =>
        (signedRange r).flatMap (fun c =>
          (signedRange r).filterMap (fun d =>
            if a ^ 2 + b ^ 2 + c ^ 2 + d ^ 2 ≤ r ^ 2 then some (a, b, c, d) else none))))
  offsets.foldl
    (fun w o =>
      let offset : Quadray :=
        ⟨(o.1 * CHUNK_SIZE : ℤ), (o.2.1 * CHUNK_SIZE : ℤ),
         (o.2.2.1 * CHUNK_SIZE : ℤ), (o.2.2.2 * CHUNK_SIZE : ℤ)⟩
      (World.getOrCreateChunk gen w (chunkCoords.add offset)).1)
    w

/-- `World::updateChunks(playerPos)`: generate around the player, compute
the (height-adapted) squared unload distance, collect every chunk that is
both beyond it and not flagged visible, and erase at most
`maxChunksToUnload = 5` of them. -/
def World.updateChunks (gen : GenFun) (w : World) (playerPos : Quadray) : World :=
  let w1 := w.generateChunksAround gen playerPos CHUNK_GENERATION_RADIUS
  let playerCartPos := playerPos.toCartesian
  let maxDistanceSq0 : ℚ := ((CHUNK_UNLOAD_DISTANCE * CHUNK_UNLOAD_DISTANCE : ℤ) : ℚ)
  let playerHeight := playerCartPos.y
  let maxDistanceSq :=
    if playerHeight > 50 then
      maxDistanceSq0 * min (1 + (playerHeight - 50) / 50) 2
    else maxDistanceSq0
  let chunksToUnload : List ChunkKey :=
    (w1.chunks.filter (fun p =>
      decide ((p.2.getCenter - playerCartPos).lengthSquared > maxDistanceSq) &&
        !p.2.isVisible)).map (fun p => p.1)
  (chunksToUnload.take 5).foldl World.eraseChunkKey w1

theorem quadrayEqual_refl (q : Quadray) : quadrayEqual q q = true := by
  simp only [quadrayEqual, decide_eq_true_eq, sub_self, abs_zero]
  norm_num

/-- The rational `10⁻⁶`, given in normal form so that its numerator and
denominator are definitionally available. -/
def oneMillionth : ℚ := Rat.mk' 1 1000000 (by norm_num) (by norm_num)

theorem oneMillionth_eq : oneMillionth = 1 / 1000000 := by
  rw [oneMillionth, Rat.mk'_eq_divInt]
  norm_num [Rat.divInt_eq_div]

theorem normalized_tiny :
    (⟨oneMillionth, 0, 0, 0⟩ : Quadray).normalized = ⟨oneMillionth, 0, 0, 0⟩ := by
  have h0 : (0 : ℚ) ≤ oneMillionth := by rw [oneMillionth_eq]; norm_num
  simp [Quadray.normalized, min_eq_right h0]

theorem stdHashFloat_zero : stdHashFloat 0 = 1 := by
  rw [stdHashFloat]
  norm_num
  decide

theorem stdHashFloat_tiny : stdHashFloat oneMillionth = 10 ^ 24 + 1 := by
  have hnum : oneMillionth.num = 1 := rfl
  have hden : oneMillionth.den = 1000000 := rfl
  rw [stdHashFloat, hnum, hden]
  decide

/-- C2 (counterexample): the map-key equality predicate (tolerance `1e-5`
after normalization) holds for `(0,0,0,0)` and `(10⁻⁶,0,0,0)`, yet their
hashes differ, because the hash is computed from the exact normalized
component values while equality allows a nonzero tolerance. -/
theorem hash_of_equal_keys_counterexample :
    quadrayEqual ⟨0, 0, 0, 0⟩ ⟨oneMillionth, 0, 0, 0⟩ = true ∧
    quadrayHash ⟨0, 0, 0, 0⟩ ≠ quadrayHash ⟨oneMillionth, 0, 0, 0⟩ := by
  have hn0 : (⟨0, 0, 0, 0⟩ : Quadray).normalized = ⟨0, 0, 0, 0⟩ := by
    simp [Quadray.normalized]
  constructor
  · simp only [quadrayEqual, hn0, normalized_tiny, decide_eq_true_eq]
    norm_num [oneMillionth_eq, abs_lt]
  · have h1 : quadrayHash ⟨0, 0, 0, 0⟩ = 15 := by
      simp only [quadrayHash, hn0, stdHashFloat_zero]
      decide
    have h2 : quadrayHash ⟨oneMillionth, 0, 0, 0⟩ = 2003764205206896655 := by
      simp only [quadrayHash, normalized_tiny, stdHashFloat_zero, stdHashFloat_tiny]
      decide
    rw [h1, h2]
    decide

/-- C2 (amended): the hash is computed from the normalized components, so
any two quadray coordinates with the same exact normalized form hash
identically; equality within the `1e-5` tolerance, however, does not imply
equal hashes. -/
theorem hash_of_exactly_equal_normalized (q1 q2 : Quadray)
    (h : q1.normalized = q2.normalized) : quadrayHash q1 = quadrayHash q2 := by
  simp only [quadrayHash, h]

/-- C2 (witness): `(1,1,1,1)` and `(2,2,2,2)` both normalize to
`(0,0,0,0)` and hash identically. -/
theorem hash_of_exactly_equal_normalized_witness :
    quadrayHash ⟨1, 1, 1, 1⟩ = quadrayHash ⟨2, 2, 2, 2⟩ :=
  hash_of_exactly_equal_normalized ⟨1, 1, 1, 1⟩ ⟨2, 2, 2, 2⟩ (by
    simp [Quadray.normalized])

theorem getCenter_eq_position_toCartesian (ch : TetraChunk) :
    ch.getCenter = ch.position.toCartesian := by
  rw [TetraChunk.getCenter, Quadray.add, toCartesian_normalized]
  simp only [Quadray.toCartesian]
  refine congrArg₂ (fun p r => Vector3.mk p r.1 r.2) ?_ (congrArg₂ Prod.mk ?_ ?_) <;> ring

/-- C4 (code bug): `getCenter()` does not return the geometric center of
the chunk's bounding cube: the `Quadray(8,8,8,8)` offset lies in the kernel
of the quadray-to-Cartesian projection, so it cancels and `getCenter`
returns the projection of the chunk's corner position instead.  For chunk
`(0,0,0)` the claim demands `(8,8,8)` but the code yields `(0,0,0)`. -/
theorem getCenter_chunk000_is_origin :
    TetraChunk.getCenter (TetraChunk.new 0 0 0) = ⟨0, 0, 0⟩ ∧
    TetraChunk.getCenter (TetraChunk.new 0 0 0) ≠ ⟨8, 8, 8⟩ := by
  have h : TetraChunk.getCenter (TetraChunk.new 0 0 0) = ⟨0, 0, 0⟩ := by
    rw [getCenter_eq_position_toCartesian]
    simp [TetraChunk.new, Quadray.toCartesian]
  refine ⟨h, ?_⟩
  rw [h]
  intro hc
  have := congrArg Vector3.x hc
  norm_num at this

theorem find?_replaced {β : Type} (l : List (Quadray × β)) (p : Quadray) (new : β)
    (hl : l.any (fun e => quadrayEqual e.1 p) = true) :
    ∃ k, (l.map (fun e => if quadrayEqual e.1 p then (e.1, new) else e)).find?
        (fun e => quadrayEqual e.1 p) = some (k, new) := by
  induction l with
  | nil => simp at hl
  | cons e l ih =>
    by_cases he : quadrayEqual e.1 p = true
    · refine ⟨e.1, ?_⟩
      rw [List.map_cons, if_pos he]
      exact List.find?_cons_of_pos _ he
    · simp only [List.any_cons, he, Bool.false_or] at hl
      obtain ⟨k, hk⟩ := ih hl
      refine ⟨k, ?_⟩
      have he' : quadrayEqual e.1 p = false := by simpa using he
      rw [List.map_cons, if_neg he]
      simp only [List.find?_cons, he']
      exact hk

theorem find?_appended {β : Type} (l : List (Quadray × β)) (p : Quadray) (new : β)
    (hl : l.any (fun e => quadrayEqual e.1 p) = false) :
    (l ++ [(p, new)]).find? (fun e => quadrayEqual e.1 p) = some (p, new) := by
  induction l with
  | nil => simp [List.find?_cons, quadrayEqual_refl]
  | cons e l ih =>
    simp only [List.any_cons, Bool.or_eq_false_iff] at hl
    simp only [List.cons_append, List.find?_cons, hl.1]
    exact ih hl.2

/-- C6: chunk-local block storage: writing a non-air id and reading the
same coordinate back returns that id; writing air erases every matching
entry and reads back air; a coordinate with no stored entry reads air; and
every `setBlock` call sets `isDirty`. -/
theorem chunk_setBlock_getBlock_spec :
    (∀ (ch : TetraChunk) (p : Quadray) (id : BlockID), id ≠ AIR_BLOCK →
      (ch.setBlock p id).getBlock p = id) ∧
    (∀ (ch : TetraChunk) (p : Quadray),
      (ch.setBlock p AIR_BLOCK).getBlock p = AIR_BLOCK ∧
      ∀ e ∈ (ch.setBlock p AIR_BLOCK).elements, quadrayEqual e.1 p = false) ∧
    (∀ (ch : TetraChunk) (p : Quadray),
      (∀ e ∈ ch.elements, quadrayEqual e.1 p = false) → ch.getBlock p = AIR_BLOCK) ∧
    (∀ (ch : TetraChunk) (p : Quadray) (id : BlockID),
      (ch.setBlock p id).isDirty = true) := by
  refine ⟨?_, ?_, ?_, ?_⟩
  · intro ch p id hid
    rw [TetraChunk.setBlock, if_neg hid, TetraChunk.getBlock]
    by_cases h : ch.elements.any (fun e => quadrayEqual e.1 p) = true
    · obtain ⟨k, hk⟩ := find?_replaced ch.elements p (TetrahedralElement.make p id) h
      rw [if_pos h, hk]
      rfl
    · have h' : ch.elements.any (fun e => quadrayEqual e.1 p) = false := by
        simpa using h
      rw [if_neg h, find?_appended ch.elements p (TetrahedralElement.make p id) h']
      rfl
  · intro ch p
    constructor
    · rw [TetraChunk.setBlock, if_pos rfl, TetraChunk.getBlock]
      have : (ch.elements.filter (fun e => !quadrayEqual e.1 p)).find?
          (fun e => quadrayEqual e.1 p) = none := by
        rw [List.find?_eq_none]
        intro x hx
        have := (List.mem_filter.mp hx).2
        simp at this
        simp [this]
      rw [this]
    · intro e he
      rw [TetraChunk.setBlock, if_pos rfl] at he
      have := (List.mem_filter.mp he).2
      simpa using this
  · intro ch p h
    rw [TetraChunk.getBlock]
    have : ch.elements.find? (fun e => quadrayEqual e.1 p) = none := by
      rw [List.find?_eq_none]
      intro x hx
      simp [h x hx]
    rw [this]
  · intro ch p id
    rw [TetraChunk.setBlock]
    by_cases h : id = AIR_BLOCK <;> simp [h]

/-- C6 (witness): the storage round-trip instantiated on a fresh chunk at
the concrete coordinate `(1,2,0,0)` with block id `1`. -/
theorem chunk_setBlock_getBlock_spec_witness :
    ((TetraChunk.new 0 0 0).setBlock ⟨1, 2, 0, 0⟩ 1).getBlock ⟨1, 2, 0, 0⟩ = 1 ∧
    ((TetraChunk.new 0 0 0).setBlock ⟨1, 2, 0, 0⟩ AIR_BLOCK).getBlock ⟨1, 2, 0, 0⟩ =
      AIR_BLOCK ∧
    (TetraChunk.new 0 0 0).getBlock ⟨1, 2, 0, 0⟩ = AIR_BLOCK ∧
    ((TetraChunk.new 0 0 0).setBlock ⟨1, 2, 0, 0⟩ 1).isDirty = true :=
  ⟨chunk_setBlock_getBlock_spec.1 _ _ 1 one_ne_zero,
   (chunk_setBlock_getBlock_spec.2.1 _ _).1,
   chunk_setBlock_getBlock_spec.2.2.1 _ _ (by simp [TetraChunk.new]),
   chunk_setBlock_getBlock_spec.2.2.2 _ _ 1⟩

/-- C1 (counterexample): `(16,16,16,16)` and `(0,0,0,0)` project to the
same Euclidean point, but `getOrCreateChunk` keys the new chunk by
`floor(component/CHUNK_SIZE)` on the quadray components `a`, `b`, `c`
themselves, storing it under `(1,1,1)` — not under the Euclidean-derived
key `(0,0,0)` that `getBlock`/`setBlock` use. -/
theorem chunk_key_not_euclidean_counterexample :
    (⟨16, 16, 16, 16⟩ : Quadray).toCartesian = (⟨0, 0, 0, 0⟩ : Quadray).toCartesian ∧
    ((World.getOrCreateChunk (fun _ => []) World.empty ⟨16, 16, 16, 16⟩).1.chunks.map
      (fun p => p.1)) = [(1, 1, 1)] ∧
    worldToChunkCoords ((⟨16, 16, 16, 16⟩ : Quadray).toCartesian) = (0, 0, 0) ∧
    ((1, 1, 1) : ChunkKey) ≠ ((0, 0, 0) : ChunkKey) := by
  have hc : (⟨16, 16, 16, 16⟩ : Quadray).toCartesian = ⟨0, 0, 0⟩ := by
    simp [Quadray.toCartesian]
  have hkey : quadrayChunkKey ⟨16, 16, 16, 16⟩ = (1, 1, 1) := by
    have h1 : ((16 : ℚ) / (CHUNK_SIZE : ℚ)) = 1 := by norm_num [CHUNK_SIZE]
    simp [quadrayChunkKey, h1]
  refine ⟨by rw [hc]; simp [Quadray.toCartesian], ?_, ?_, by decide⟩
  · rw [World.getOrCreateChunk, hkey]
    simp [World.findChunk, World.empty]
  · rw [hc]
    simp [worldToChunkCoords]

/-- C1 (amended): `World::getBlock` and `World::setBlock` do derive the
chunk key from the Euclidean projection, so any two lattice coordinates
with the same Euclidean projection behave identically under them; but
`getOrCreateChunk`, `getChunk(Quadray)` and `unloadChunk` apply
`floor(component/CHUNK_SIZE)` to the quadray components `a`, `b`, `c`
directly, and can resolve Euclidean-equal coordinates to different chunk
keys. -/
theorem getBlock_setBlock_key_from_euclidean (w : World) (q1 q2 : Quadray)
    (id : BlockID) (h : q1.toCartesian = q2.toCartesian) :
    w.getBlock q1 = w.getBlock q2 ∧ w.setBlock q1 id = w.setBlock q2 id := by
  constructor
  · simp only [World.getBlock, TetraChunk.worldToChunkSpace, h]
  · simp only [World.setBlock, TetraChunk.worldToChunkSpace, h]

/-- C1 (witness): the amended statement instantiated at the
Euclidean-equal pair `(16,16,16,16)`, `(0,0,0,0)` in the empty world. -/
theorem getBlock_setBlock_key_from_euclidean_witness :
    World.getBlock World.empty ⟨16, 16, 16, 16⟩ = World.getBlock World.empty ⟨0, 0, 0, 0⟩ ∧
    World.setBlock World.empty ⟨16, 16, 16, 16⟩ 1 = World.setBlock World.empty ⟨0, 0, 0, 0⟩ 1 :=
  getBlock_setBlock_key_from_euclidean World.empty ⟨16, 16, 16, 16⟩ ⟨0, 0, 0, 0⟩ 1
    (by simp [Quadray.toCartesian])

theorem findChunk_none_iff (w : World) (key : ChunkKey) :
    w.findChunk key = none ↔ ∀ p ∈ w.chunks, p.1 ≠ key := by
  rw [World.findChunk, Option.map_eq_none', List.find?_eq_none]
  constructor
  · intro h p hp
    have := h p hp
    simpa using this
  · intro h p hp
    simpa using h p hp

theorem mem_getOrCreateChunk (gen : GenFun) (w : World) (q : Quadray)
    (x : ChunkKey × TetraChunk) (hx : x ∈ w.chunks) :
    x ∈ (World.getOrCreateChunk gen w q).1.chunks := by
  rw [World.getOrCreateChunk]
  split
  · exact hx
  · exact List.mem_append_left _ hx

theorem nodup_getOrCreateChunk (gen : GenFun) (w : World) (q : Quadray)
    (h : (w.chunks.map Prod.fst).Nodup) :
    ((World.getOrCreateChunk gen w q).1.chunks.map Prod.fst).Nodup := by
  rw [World.getOrCreateChunk]
  split
  · exact h
  · rename_i hnone
    rw [List.map_append]
    refine List.Nodup.append h (by simp) ?_
    simp only [List.map_cons, List.map_nil, List.disjoint_singleton]
    intro hmem
    obtain ⟨p, hp, hp1⟩ := List.mem_map.mp hmem
    exact (findChunk_none_iff w _).mp hnone p hp hp1

theorem mem_chunks_foldl {α : Type} (f : World → α → World)
    (hf : ∀ (w : World) (o : α) (x : ChunkKey × TetraChunk),
      x ∈ w.chunks → x ∈ (f w o).chunks) (l : List α) :
    ∀ (w : World) (x : ChunkKey × TetraChunk), x ∈ w.chunks → x ∈ (l.foldl f w).chunks := by
  induction l with
  | nil => intro w x hx; exact hx
  | cons o l ih =>
    intro w x hx
    exact ih (f w o) x (hf w o x hx)

theorem nodup_chunks_foldl {α : Type} (f : World → α → World)
    (hf : ∀ (w : World) (o : α), (w.chunks.map Prod.fst).Nodup →
      ((f w o).chunks.map Prod.fst).Nodup) (l : List α) :
    ∀ (w : World), (w.chunks.map Prod.fst).Nodup →
      ((l.foldl f w).chunks.map Prod.fst).Nodup := by
  induction l with
  | nil => intro w hw; exact hw
  | cons o l ih =>
    intro w hw
    exact ih (f w o) (hf w o hw)

theorem mem_generateChunksAround (gen : GenFun) (w : World) (center : Quadray)
    (radius : ℤ) (x : ChunkKey × TetraChunk) (hx : x ∈ w.chunks) :
    x ∈ (w.generateChunksAround gen center radius).chunks := by
  rw [World.generateChunksAround]
  exact mem_chunks_foldl _ (fun w o x hx => mem_getOrCreateChunk gen w _ x hx) _ w x hx

theorem nodup_generateChunksAround (gen : GenFun) (w : World) (center : Quadray)
    (radius : ℤ) (h : (w.chunks.map Prod.fst).Nodup) :
    ((w.generateChunksAround gen center radius).chunks.map Prod.fst).Nodup := by
  rw [World.generateChunksAround]
  exact nodup_chunks_foldl _ (fun w o hw => nodup_getOrCreateChunk gen w _ hw) _ w h

theorem assoc_nodup_unique {l : List (ChunkKey × TetraChunk)}
    (h : (l.map Prod.fst).Nodup) {k : ChunkKey} {a b : TetraChunk}
    (ha : (k, a) ∈ l) (hb : (k, b) ∈ l) : a = b := by
  induction l with
  | nil => simp at ha
  | cons e l ih =>
    rw [List.map_cons, List.nodup_cons] at h
    rcases List.mem_cons.mp ha with ha' | ha'
    · rcases List.mem_cons.mp hb with hb' | hb'
      · exact congrArg Prod.snd (ha'.trans hb'.symm)
      · exfalso
        apply h.1
        rw [← ha']
        exact List.mem_map.mpr ⟨(k, b), hb', rfl⟩
    · rcases List.mem_cons.mp hb with hb' | hb'
      · exfalso
        apply h.1
        rw [← hb']
        exact List.mem_map.mpr ⟨(k, a), ha', rfl⟩
      · exact ih h.2 ha' hb'

theorem mem_foldl_erase (l : List ChunkKey) :
    ∀ (w : World) (x : ChunkKey × TetraChunk), x ∈ w.chunks → x.1 ∉ l →
      x ∈ (l.foldl World.eraseChunkKey w).chunks := by
  induction l with
  | nil => intro w x hx _; exact hx
  | cons k l ih =>
    intro w x hx hk
    rw [List.foldl_cons]
    refine ih _ x ?_ (fun hmem => hk (List.mem_cons_of_mem _ hmem))
    rw [World.eraseChunkKey]
    refine List.mem_filter.mpr ⟨hx, ?_⟩
    have : x.1 ≠ k := fun he => hk (he ▸ List.mem_cons_self _ _)
    simpa using this

/-- C9: `updateChunks` never removes a chunk flagged visible: a stored
chunk with `isVisible = true` is still stored (unchanged) after
`updateChunks`, whatever its distance from the player — only chunks that
both exceed the distance threshold and are not visible are erased. -/
theorem updateChunks_preserves_visible (gen : GenFun) (playerPos : Quadray)
    (w : World) (key : ChunkKey) (ch : TetraChunk)
    (hnd : (w.chunks.map Prod.fst).Nodup)
    (hmem : (key, ch) ∈ w.chunks) (hvis : ch.isVisible = true) :
    (key, ch) ∈ (World.updateChunks gen w playerPos).chunks := by
  rw [World.updateChunks]
  have hmem1 := mem_generateChunksAround gen w playerPos CHUNK_GENERATION_RADIUS _ hmem
  have hnd1 := nodup_generateChunksAround gen w playerPos CHUNK_GENERATION_RADIUS hnd
  refine mem_foldl_erase _ _ _ hmem1 ?_
  intro htake
  have hunload := List.mem_of_mem_take htake
  obtain ⟨p, hp, hp1⟩ := List.mem_map.mp hunload
  have hfil := List.mem_filter.mp hp
  have hchp : p.2 = ch := by
    have hp1' : p.1 = key := hp1
    have hmemp : (key, p.2) ∈ (w.generateChunksAround gen playerPos
        CHUNK_GENERATION_RADIUS).chunks := by
      rw [← hp1']
      exact hfil.1
    exact assoc_nodup_unique hnd1 hmemp hmem1
  have hnv : p.2.isVisible = false := by
    have h2 := hfil.2
    simp only [Bool.and_eq_true, Bool.not_eq_true'] at h2
    exact h2.2
  rw [hchp, hvis] at hnv
  exact absurd hnv (by decide)

/-- C9 (witness): a far-away but visible chunk at key `(100,0,0)` survives
`updateChunks` around the origin. -/
theorem updateChunks_preserves_visible_witness :
    ((100, 0, 0),
      { TetraChunk.new 100 0 0 with isVisible := true }) ∈
      (World.updateChunks (fun _ => [])
        ⟨defaultRegistry, [((100, 0, 0), { TetraChunk.new 100 0 0 with isVisible := true })]⟩
        ⟨0, 0, 0, 0⟩).chunks :=
  updateChunks_preserves_visible (fun _ => []) ⟨0, 0, 0, 0⟩ _ _ _
    (by simp) (by simp) rfl

/-- Truncation toward zero, the behaviour of C `fmod(x, 1.0)`'s implicit
quotient. -/
def ratTrunc (x : ℚ) : ℤ :=
  if 0 ≤ x then ⌊x⌋ else -⌊-x⌋

/-- `std::fmod(x, 1.0f)`: the remainder of `x` after removing the integral
part, truncated toward zero. -/
def fmodOne (x : ℚ) : ℚ := x - ratTrunc x

/-- The `clamp` helper of `ChunkMesher.h`:
`std::max(min, std::min(max, value))`. -/
def clamp (value mn mx : ℚ) : ℚ := max mn (min mx value)

/-- `Vertex` (`Mesh.h`): position, normal, color and texture
coordinates. -/
structure Vertex where
  position : Vector3
  normal : Vector3
  color : Vector3
  u : ℚ
  v : ℚ
deriving DecidableEq

/-- The color table built by `ChunkMesher::initializeLookupTables`: the six
specific block colors, then the deterministic formula colors for every
other id in `1..255`; any other id read through `blockColors[...]`
default-inserts `Vector3()`. -/
def blockColors (id : BlockID) : Vector3 :=
  if id = STONE_BLOCK then ⟨6/10, 6/10, 6/10⟩
  else if id = DIRT_BLOCK then ⟨55/100, 3/10, 13/100⟩
  else if id = GRASS_BLOCK then ⟨3/10, 7/10, 15/100⟩
  else if id = SAND_BLOCK then ⟨9/10, 9/10, 5/10⟩
  else if id = WATER_BLOCK then ⟨0, 4/10, 9/10⟩
  else if id = ORE_BLOCK then ⟨3/10, 3/10, 7/10⟩
  else if 1 ≤ id ∧ id ≤ 255 then
    let r : ℚ := (id % 7 : ℕ) / 7
    let g : ℚ := ((id * 13) % 11 : ℕ) / 11
    let b : ℚ := ((id * 23) % 17 : ℕ) / 17
    ⟨r * (6/10) + 3/10, g * (6/10) + 3/10, b * (6/10) + 3/10⟩
  else ⟨0, 0, 0⟩

/-- `TetraChunk::getNeighbors` (`TetraChunk.cpp`): for each face of the
tetrahedron at `quadPos` (faces taken from `getFaces`), reflect the center
across the face centroid.  The source computes
`center + dir.normalized() * 2 * dir.length()` with
`dir = faceCenter - center`; that expression equals `center + dir * 2`
exactly (also for `dir = 0`, where `normalized()` returns `0`), which is
the form embedded here. -/
def TetraChunk.getNeighbors (quadPos : Quadray) : Fin 4 → Quadray :=
  let element := TetrahedralElement.make quadPos AIR_BLOCK
  let tetraVertices := element.getVertices
  let tetraFaces := TetrahedralElement.getFaces
  let center := quadPos.toCartesian
  fun faceIndex =>
    let faceCenter :=
      (tetraVertices (tetraFaces faceIndex 0) + tetraVertices (tetraFaces faceIndex 1) +
        tetraVertices (tetraFaces faceIndex 2)).sdiv 3
    let neighborPos := center + (faceCenter - center).smul 2
    Quadray.fromCartesian neighborPos

/-- `ChunkMesher::getBlockAt`: convert the chunk-local position to world
space and query the World (this is what resolves lookups across chunk
boundaries). -/
def ChunkMesher.getBlockAt (w : World) (ch : TetraChunk) (pos : Quadray) : BlockID :=
  w.getBlock (ch.chunkToWorldSpace pos)

/-- `ChunkMesher::shouldRenderFace`: render iff the neighbor's block is air
or its registry entry is transparent (the `blockPos` parameter of the
source is unused and omitted). -/
def ChunkMesher.shouldRenderFace (w : World) (ch : TetraChunk) (neighborPos : Quadray) :
    Bool :=
  let neighborType := ChunkMesher.getBlockAt w ch neighborPos
  neighborType == AIR_BLOCK || (w.blockRegistry.getBlock neighborType).transparent

/-- The face-vertex index triples used by `createMeshForChunk`: the face
opposite vertex `i` consists of the three other vertex indices in
ascending order (note: this is a different indexing from
`TetrahedralElement::getFaces`, which `getNeighbors` uses). -/
def meshFaceIndices : Fin 4 → Fin 3 → Fin 4 :=
  fun i j =>
    match i, j with
    | 0, 0 => 1 | 0, 1 => 2 | 0, 2 => 3
    | 1, 0 => 0 | 1, 1 => 2 | 1, 2 => 3
    | 2, 0 => 0 | 2, 1 => 1 | 2, 2 => 3
    | 3, 0 => 0 | 3, 1 => 1 | 3, 2 => 2

/-- `MAX_ELEMENTS = 10000`, the per-chunk safety limit of
`createMeshForChunk`. -/
def MAX_ELEMENTS : ℕ := 10000

/-- The three vertices `createMeshForChunk` emits for face `i` of the
element stored under key `pos`: the color pipeline (base color, positional
variation, per-face shade), the inset tetrahedron vertices, and the
outward normal (kept as the unnormalized cross product, sign-corrected by
the scale-invariant test `normal.dot(toOpposite) > 0`; see the header). -/
def faceVerticesOf (pos : Quadray) (element : TetrahedralElement) (i : Fin 4) :
    List Vertex :=
  let baseColor := blockColors element.blockId
  let posHash := pos.a * (13/100) + pos.b * (27/100) + pos.c * (41/100) + pos.d * (53/100)
  let variation := fmodOne |posHash| * (2/10) - 1/10
  let aInfluence := fmodOne (pos.a * (37/10)) * (5/100)
  let bInfluence := fmodOne (pos.b * (53/10)) * (5/100)
  let cInfluence := fmodOne (pos.c * (71/10)) * (5/100)
  let color : Vector3 :=
    ⟨clamp (baseColor.x + variation + aInfluence) 0 1,
     clamp (baseColor.y + variation + bInfluence) 0 1,
     clamp (baseColor.z + variation + cInfluence) 0 1⟩
  let tetraVerts0 := element.getVertices
  let insetFactor : ℚ := 5/1000
  let center := (tetraVerts0 0 + tetraVerts0 1 + tetraVerts0 2 + tetraVerts0 3).sdiv 4
  let tetraVerts := fun j => tetraVerts0 j + (center - tetraVerts0 j).smul insetFactor
  let fj := meshFaceIndices i
  let edge1 := tetraVerts (fj 1) - tetraVerts (fj 0)
  let edge2 := tetraVerts (fj 2) - tetraVerts (fj 0)
  let normal0 := edge1.cross edge2
  let normal := if normal0.dot (tetraVerts i - tetraVerts (fj 0)) > 0
    then normal0.smul (-1) else normal0
  let faceColor : Vector3 :=
    ⟨clamp (color.x + 5/100 * ((i : ℕ) : ℚ)) 0 1,
     clamp (color.y - 3/100 * ((i : ℕ) : ℚ)) 0 1,
     clamp (color.z + 4/100 * (((i : ℕ) % 2 : ℕ) : ℚ)) 0 1⟩
  [⟨tetraVerts (fj 0), normal, faceColor, 0, 0⟩,
   ⟨tetraVerts (fj 1), normal, faceColor, 0, 0⟩,
   ⟨tetraVerts (fj 2), normal, faceColor, 0, 0⟩]

/-- The list of `Fin 4` face indices in loop order. -/
def finFourList : List (Fin 4) := [0, 1, 2, 3]

/-- The faces `createMeshForChunk` emits for one element: air elements are
skipped (`continue`), otherwise each of the four faces whose
`shouldRenderFace` test (at the neighbor from `getNeighbors`) passes
contributes its three vertices. -/
def elementFaceBlocks (w : World) (ch : TetraChunk) (pos : Quadray)
    (element : TetrahedralElement) : List (List Vertex) :=
  if element.blockId = AIR_BLOCK then []
  else
    let neighbors := TetraChunk.getNeighbors pos
    finFourList.filterMap (fun i =>
      if ChunkMesher.shouldRenderFace w ch (neighbors i) then
        some (faceVerticesOf pos element i)
      else none)

/-- Appending one emitted face to the accumulated mesh: three vertices and
the three sequential indices `baseIndex, baseIndex+1, baseIndex+2` with
`baseIndex = vertices.size()`. -/
def appendFace (acc : List Vertex × List ℕ) (face : List Vertex) :
    List Vertex × List ℕ :=
  let baseIndex := acc.1.length
  (acc.1 ++ face, acc.2 ++ [baseIndex, baseIndex + 1, baseIndex + 2])

/-- The element loop of `ChunkMesher::createMeshForChunk`: walk the
element list with the `processedElements` counter (post-increment compare,
so the loop body runs for the first `MAX_ELEMENTS + 1` elements and then
breaks), appending each element's emitted faces. -/
def meshLoop (w : World) (ch : TetraChunk) :
    List (Quadray × TetrahedralElement) → ℕ → List Vertex × List ℕ →
    List Vertex × List ℕ
  | [], _, acc => acc
  | (pos, element) :: rest, processed, acc =>
    if processed > MAX_ELEMENTS then acc
    else meshLoop w ch rest (processed + 1)
      ((elementFaceBlocks w ch pos element).foldl appendFace acc)

/-- `ChunkMesher::createMeshForChunk`: the vertex list and index list
handed to `Mesh::create`. -/
def createMeshForChunk (w : World) (ch : TetraChunk) : List Vertex × List ℕ :=
  meshLoop w ch ch.elements 0 ([], [])

/-- The emitted faces of a chunk's element list, as
`(key, element, face index)` triples: the faces of the first
`MAX_ELEMENTS + 1` non-air elements whose visibility test passes. -/
def emittedFaces (w : World) (ch : TetraChunk)
    (l : List (Quadray × TetrahedralElement)) :
    List (Quadray × TetrahedralElement × Fin 4) :=
  (l.take (MAX_ELEMENTS + 1)).flatMap (fun pe =>
    if pe.2.blockId = AIR_BLOCK then []
    else
      (finFourList.filter (fun i =>
        ChunkMesher.shouldRenderFace w ch (TetraChunk.getNeighbors pe.1 i))).map
        (fun i => (pe.1, pe.2, i)))

theorem meshLoop_take (w : World) (ch : TetraChunk) :
    ∀ (l : List (Quadray × TetrahedralElement)) (k : ℕ) (acc : List Vertex × List ℕ),
      meshLoop w ch l k acc = meshLoop w ch (l.take (MAX_ELEMENTS + 1 - k)) k acc := by
  intro l
  induction l with
  | nil => intro k acc; rw [List.take_nil]
  | cons pe rest ih =>
    intro k acc
    obtain ⟨pos, element⟩ := pe
    by_cases hk : k > MAX_ELEMENTS
    · have h0 : MAX_ELEMENTS + 1 - k = 0 := by omega
      rw [h0, List.take_zero]
      simp [meshLoop, hk]
    · have h1 : MAX_ELEMENTS + 1 - k = (MAX_ELEMENTS + 1 - (k + 1)) + 1 := by omega
      rw [h1, List.take_succ_cons, meshLoop, if_neg hk, meshLoop, if_neg hk, ih]

/-- C10: `createMeshForChunk` processes at most `MAX_ELEMENTS + 1 = 10001`
elements: its output (vertex list and index list) equals the output of the
same loop run on only the first `10001` elements of the chunk's element
list, so all later elements contribute no vertices and no indices. -/
theorem mesh_processes_at_most_10001_elements (w : World) (ch : TetraChunk) :
    createMeshForChunk w ch =
      meshLoop w ch (ch.elements.take (MAX_ELEMENTS + 1)) 0 ([], []) := by
  rw [createMeshForChunk, meshLoop_take w ch ch.elements 0 ([], []), Nat.sub_zero]

theorem foldl_appendFace_fst (blocks : List (List Vertex)) :
    ∀ acc : List Vertex × List ℕ,
      (blocks.foldl appendFace acc).1 = acc.1 ++ blocks.flatten := by
  induction blocks with
  | nil => intro acc; simp
  | cons b bs ih =>
    intro acc
    rw [List.foldl_cons, ih]
    simp [appendFace]

theorem meshLoop_fst (w : World) (ch : TetraChunk) :
    ∀ (l : List (Quadray × TetrahedralElement)) (k : ℕ) (acc : List Vertex × List ℕ),
      (meshLoop w ch l k acc).1 =
        acc.1 ++ (l.take (MAX_ELEMENTS + 1 - k)).flatMap
          (fun pe => (elementFaceBlocks w ch pe.1 pe.2).flatten) := by
  intro l
  induction l with
  | nil => intro k acc; simp [meshLoop]
  | cons pe rest ih =>
    intro k acc
    obtain ⟨pos, element⟩ := pe
    by_cases hk : k > MAX_ELEMENTS
    · have h0 : MAX_ELEMENTS + 1 - k = 0 := by omega
      rw [meshLoop, if_pos hk, h0, List.take_zero]
      simp
    · have h1 : MAX_ELEMENTS + 1 - k = (MAX_ELEMENTS + 1 - (k + 1)) + 1 := by omega
      rw [meshLoop, if_neg hk, ih, foldl_appendFace_fst, h1, List.take_succ_cons,
        List.flatMap_cons, List.append_assoc]

theorem flatten_filterMap_ite {α β : Type} (l : List α) (c : α → Bool) (f : α → List β) :
    (l.filterMap (fun i => if c i then some (f i) else none)).flatten =
      (l.filter c).flatMap f := by
  induction l with
  | nil => rfl
  | cons a l ih =>
    by_cases hc : c a
    · simp [List.filterMap_cons, List.filter_cons, hc, ih]
    · simp only [Bool.not_eq_true] at hc
      simp [List.filterMap_cons, List.filter_cons, hc, ih]

theorem elementFaceBlocks_flatten (w : World) (ch : TetraChunk) (pos : Quadray)
    (element : TetrahedralElement) :
    (elementFaceBlocks w ch pos element).flatten =
      (if element.blockId = AIR_BLOCK then []
       else (finFourList.filter (fun i =>
          ChunkMesher.shouldRenderFace w ch (TetraChunk.getNeighbors pos i))).map
          (fun i => (pos, element, i))).flatMap
        (fun t : Quadray × TetrahedralElement × Fin 4 =>
          faceVerticesOf t.1 t.2.1 t.2.2) := by
  rw [elementFaceBlocks]
  by_cases ha : element.blockId = AIR_BLOCK
  · rw [if_pos ha, if_pos ha]
    rfl
  · rw [if_neg ha, if_neg ha, flatten_filterMap_ite, List.flatMap_map]

theorem mesh_vertices_eq_emitted (w : World) (ch : TetraChunk) :
    (createMeshForChunk w ch).1 =
      (emittedFaces w ch ch.elements).flatMap
        (fun t => faceVerticesOf t.1 t.2.1 t.2.2) := by
  rw [createMeshForChunk, meshLoop_fst, emittedFaces, List.flatMap_assoc]
  simp only [Nat.sub_zero, List.nil_append, elementFaceBlocks_flatten]

@[simp] theorem Vector3.add_x (v w : Vector3) : (v + w).x = v.x + w.x := rfl

@[simp] theorem Vector3.add_y (v w : Vector3) : (v + w).y = v.y + w.y := rfl

@[simp] theorem Vector3.add_z (v w : Vector3) : (v + w).z = v.z + w.z := rfl

@[simp] theorem Vector3.sub_x (v w : Vector3) : (v - w).x = v.x - w.x := rfl

@[simp] theorem Vector3.sub_y (v w : Vector3) : (v - w).y = v.y - w.y := rfl

@[simp] theorem Vector3.sub_z (v w : Vector3) : (v - w).z = v.z - w.z := rfl

@[simp] theorem Vector3.smul_x (v : Vector3) (s : ℚ) : (v.smul s).x = v.x * s := rfl

@[simp] theorem Vector3.smul_y (v : Vector3) (s : ℚ) : (v.smul s).y = v.y * s := rfl

@[simp] theorem Vector3.smul_z (v : Vector3) (s : ℚ) : (v.smul s).z = v.z * s := rfl

@[simp] theorem Vector3.sdiv_x (v : Vector3) (s : ℚ) : (v.sdiv s).x = v.x / s := rfl

@[simp] theorem Vector3.sdiv_y (v : Vector3) (s : ℚ) : (v.sdiv s).y = v.y / s := rfl

@[simp] theorem Vector3.sdiv_z (v : Vector3) (s : ℚ) : (v.sdiv s).z = v.z / s := rfl

/-- In a world with no loaded chunks every lookup returns air
(missing-data recovery). -/
theorem getBlock_empty_world (q : Quadray) : World.getBlock World.empty q = AIR_BLOCK := rfl

/-- In a world with no loaded chunks every face-visibility test passes
(the neighbor resolves to air). -/
theorem shouldRenderFace_empty_world (ch : TetraChunk) (q : Quadray) :
    ChunkMesher.shouldRenderFace World.empty ch q = true := rfl

theorem Vector3.ext_comp {v w : Vector3} (hx : v.x = w.x) (hy : v.y = w.y)
    (hz : v.z = w.z) : v = w := by
  cases v
  cases w
  congr 1

theorem chunkToWorldSpace_zero (ch : TetraChunk) (hx : ch.chunkX = 0)
    (hy : ch.chunkY = 0) (hz : ch.chunkZ = 0) (q : Quadray) :
    ch.chunkToWorldSpace q = Quadray.fromCartesian q.toCartesian := by
  simp [TetraChunk.chunkToWorldSpace, hx, hy, hz]

/-- The neighbor `getNeighbors` computes for face index `0` (reflection
across `getFaces(0) = {0,1,2}`, the face opposite vertex `3`): offset
`(1/9, 1/9, sqrt2/4.5)` from the element's center. -/
theorem getNeighbors_zero (q : Quadray) :
    TetraChunk.getNeighbors q 0 =
      Quadray.fromCartesian (q.toCartesian + ⟨1/9, 1/9, 707106781/4500000000⟩) := by
  have h0 : TetrahedralElement.getFaces 0 0 = (0 : Fin 4) := rfl
  have h1 : TetrahedralElement.getFaces 0 1 = (1 : Fin 4) := rfl
  have h2 : TetrahedralElement.getFaces 0 2 = (2 : Fin 4) := rfl
  have hv0 : (TetrahedralElement.make q AIR_BLOCK).getVertices 0 =
      q.normalized.toCartesian + ⟨0, 1/2, 0⟩ := rfl
  have hv1 : (TetrahedralElement.make q AIR_BLOCK).getVertices 1 =
      q.normalized.toCartesian + ⟨2 * (1/2) / 3, -(1/2) / 3, 0⟩ := rfl
  have hv2 : (TetrahedralElement.make q AIR_BLOCK).getVertices 2 =
      q.normalized.toCartesian +
        ⟨-(1/2) / 3, -(1/2) / 3, 1414213562/1000000000 * (1/2) / 3⟩ := rfl
  have hpos : (TetrahedralElement.make q AIR_BLOCK).position = q.normalized := rfl
  simp only [TetraChunk.getNeighbors, h0, h1, h2, hv0, hv1, hv2, hpos,
    toCartesian_normalized]
  congr 1
  apply Vector3.ext_comp <;>
    simp only [Vector3.add_x, Vector3.add_y, Vector3.add_z, Vector3.sub_x,
      Vector3.sub_y, Vector3.sub_z, Vector3.smul_x, Vector3.smul_y, Vector3.smul_z,
      Vector3.sdiv_x, Vector3.sdiv_y, Vector3.sdiv_z] <;> ring

/-- The neighbor `getNeighbors` computes for face index `3` (reflection
across `getFaces(3) = {1,3,2}`, the face opposite vertex `0` — the very
triangle the mesher draws for loop index `0`): offset `(0, -1/3, 0)`. -/
theorem getNeighbors_three (q : Quadray) :
    TetraChunk.getNeighbors q 3 =
      Quadray.fromCartesian (q.toCartesian + ⟨0, -(1/3), 0⟩) := by
  have h0 : TetrahedralElement.getFaces 3 0 = (1 : Fin 4) := rfl
  have h1 : TetrahedralElement.getFaces 3 1 = (3 : Fin 4) := rfl
  have h2 : TetrahedralElement.getFaces 3 2 = (2 : Fin 4) := rfl
  have hv1 : (TetrahedralElement.make q AIR_BLOCK).getVertices 1 =
      q.normalized.toCartesian + ⟨2 * (1/2) / 3, -(1/2) / 3, 0⟩ := rfl
  have hv2 : (TetrahedralElement.make q AIR_BLOCK).getVertices 2 =
      q.normalized.toCartesian +
        ⟨-(1/2) / 3, -(1/2) / 3, 1414213562/1000000000 * (1/2) / 3⟩ := rfl
  have hv3 : (TetrahedralElement.make q AIR_BLOCK).getVertices 3 =
      q.normalized.toCartesian +
        ⟨-(1/2) / 3, -(1/2) / 3, -(1414213562/1000000000) * (1/2) / 3⟩ := rfl
  have hpos : (TetrahedralElement.make q AIR_BLOCK).position = q.normalized := rfl
  simp only [TetraChunk.getNeighbors, h0, h1, h2, hv1, hv2, hv3, hpos,
    toCartesian_normalized]
  congr 1
  apply Vector3.ext_comp <;>
    simp only [Vector3.add_x, Vector3.add_y, Vector3.add_z, Vector3.sub_x,
      Vector3.sub_y, Vector3.sub_z, Vector3.smul_x, Vector3.smul_y, Vector3.smul_z,
      Vector3.sdiv_x, Vector3.sdiv_y, Vector3.sdiv_z] <;> ring

/-- A stone element whose Euclidean position `(15.95, 8, 8)` sits close to
the `x = 16` chunk boundary of chunk `(0,0,0)`: its index-`0` neighbor
crosses into chunk `(1,0,0)` while its index-`3` neighbor stays inside
chunk `(0,0,0)`. -/
def pSwap : Quadray := Quadray.fromCartesian ⟨1595/100, 8, 8⟩

/-- The exact local key under which a `World.getBlock` lookup of
`getNeighbors pSwap 3` resolves inside chunk `(0,0,0)` (the
world-to-chunk/chunk-to-world round trip of that neighbor). -/
def m3 : Quadray :=
  (TetraChunk.new 0 0 0).worldToChunkSpace
    ((TetraChunk.new 0 0 0).chunkToWorldSpace (TetraChunk.getNeighbors pSwap 3))

/-- Chunk `(0,0,0)` holding stone at `m3` (the block across the triangle
the mesher draws for loop index `0` of `pSwap`) and the stone element at
`pSwap` itself. -/
def swapChunk : TetraChunk :=
  { TetraChunk.new 0 0 0 with
      elements := [(m3, ⟨m3, STONE_BLOCK⟩), (pSwap, ⟨pSwap, STONE_BLOCK⟩)] }

def swapWorld : World := ⟨defaultRegistry, [((0, 0, 0), swapChunk)]⟩

theorem pSwap_toCartesian :
    pSwap.toCartesian =
      ⟨roundtripFactor * (1595/100), roundtripFactor * 8, roundtripFactor * 8⟩ :=
  fromCartesian_toCartesian ⟨1595/100, 8, 8⟩

theorem lookup3_cartesian :
    (swapChunk.chunkToWorldSpace (TetraChunk.getNeighbors pSwap 3)).toCartesian =
      ⟨roundtripFactor ^ 3 * (1595/100),
       roundtripFactor ^ 3 * 8 - roundtripFactor ^ 2 * (1/3),
       roundtripFactor ^ 3 * 8⟩ := by
  rw [chunkToWorldSpace_zero swapChunk rfl rfl rfl, fromCartesian_toCartesian,
    getNeighbors_three, fromCartesian_toCartesian, pSwap_toCartesian]
  apply Vector3.ext_comp <;>
    simp only [Vector3.add_x, Vector3.add_y, Vector3.add_z] <;> ring

theorem lookup0_cartesian :
    (swapChunk.chunkToWorldSpace (TetraChunk.getNeighbors pSwap 0)).toCartesian =
      ⟨roundtripFactor ^ 3 * (1595/100) + roundtripFactor ^ 2 * (1/9),
       roundtripFactor ^ 3 * 8 + roundtripFactor ^ 2 * (1/9),
       roundtripFactor ^ 3 * 8 + roundtripFactor ^ 2 * (707106781/4500000000)⟩ := by
  rw [chunkToWorldSpace_zero swapChunk rfl rfl rfl, fromCartesian_toCartesian,
    getNeighbors_zero, fromCartesian_toCartesian, pSwap_toCartesian]
  apply Vector3.ext_comp <;>
    simp only [Vector3.add_x, Vector3.add_y, Vector3.add_z] <;> ring

theorem lookup3_key :
    worldToChunkCoords
      ((swapChunk.chunkToWorldSpace (TetraChunk.getNeighbors pSwap 3)).toCartesian) =
      ((0, 0, 0) : ChunkKey) := by
  rw [lookup3_cartesian, worldToChunkCoords]
  refine congrArg₂ Prod.mk ?_ (congrArg₂ Prod.mk ?_ ?_) <;>
    rw [Int.floor_eq_zero_iff, Set.mem_Ico] <;>
    constructor <;>
    norm_num [roundtripFactor, ROOT2, CHUNK_SIZE]

theorem lookup0_key :
    worldToChunkCoords
      ((swapChunk.chunkToWorldSpace (TetraChunk.getNeighbors pSwap 0)).toCartesian) =
      ((1, 0, 0) : ChunkKey) := by
  rw [lookup0_cartesian, worldToChunkCoords]
  refine congrArg₂ Prod.mk ?_ (congrArg₂ Prod.mk ?_ ?_)
  · rw [Int.floor_eq_iff]
    constructor <;> norm_num [roundtripFactor, ROOT2, CHUNK_SIZE]
  · rw [Int.floor_eq_zero_iff, Set.mem_Ico]
    constructor <;> norm_num [roundtripFactor, ROOT2, CHUNK_SIZE]
  · rw [Int.floor_eq_zero_iff, Set.mem_Ico]
    constructor <;> norm_num [roundtripFactor, ROOT2, CHUNK_SIZE]

theorem m3_eq :
    swapChunk.worldToChunkSpace
      (swapChunk.chunkToWorldSpace (TetraChunk.getNeighbors pSwap 3)) = m3 := rfl

/-- The lookup across the mesher's drawn triangle for index `0` of `pSwap`
finds the stone stored at `m3`. -/
theorem swap_neighbor3_is_stone :
    ChunkMesher.getBlockAt swapWorld swapChunk (TetraChunk.getNeighbors pSwap 3) =
      STONE_BLOCK := by
  rw [ChunkMesher.getBlockAt, World.getBlock]
  have hsc : swapWorld.findChunk
      (worldToChunkCoords
        ((swapChunk.chunkToWorldSpace (TetraChunk.getNeighbors pSwap 3)).toCartesian)) =
      some swapChunk := by
    rw [lookup3_key]
    rfl
  rw [hsc]
  show swapChunk.getBlock
    (swapChunk.worldToChunkSpace
      (swapChunk.chunkToWorldSpace (TetraChunk.getNeighbors pSwap 3))) = STONE_BLOCK
  rw [TetraChunk.getBlock, m3_eq]
  rw [show swapChunk.elements =
      [(m3, ⟨m3, STONE_BLOCK⟩), (pSwap, ⟨pSwap, STONE_BLOCK⟩)] from rfl]
  have hfind : List.find?
      (fun e : Quadray × TetrahedralElement => quadrayEqual e.1 m3)
      [(m3, ⟨m3, STONE_BLOCK⟩), (pSwap, ⟨pSwap, STONE_BLOCK⟩)] =
      some (m3, ⟨m3, STONE_BLOCK⟩) :=
    List.find?_cons_of_pos _ (quadrayEqual_refl m3)
  rw [hfind]

/-- The lookup at `getNeighbors pSwap 0` lands in the non-existent chunk
`(1,0,0)` and therefore resolves to air, so the mesher's gate for the
triangle drawn at loop index `0` passes. -/
theorem swap_neighbor0_is_air :
    ChunkMesher.getBlockAt swapWorld swapChunk (TetraChunk.getNeighbors pSwap 0) =
      AIR_BLOCK := by
  rw [ChunkMesher.getBlockAt, World.getBlock]
  have hsc : swapWorld.findChunk
      (worldToChunkCoords
        ((swapChunk.chunkToWorldSpace (TetraChunk.getNeighbors pSwap 0)).toCartesian)) =
      none := by
    rw [lookup0_key]
    rfl
  rw [hsc]

theorem swap_face0_emitted :
    (pSwap, (⟨pSwap, STONE_BLOCK⟩ : TetrahedralElement), (0 : Fin 4)) ∈
      emittedFaces swapWorld swapChunk swapChunk.elements := by
  rw [emittedFaces]
  refine List.mem_flatMap.mpr ⟨(pSwap, ⟨pSwap, STONE_BLOCK⟩), ?_, ?_⟩
  · rw [show swapChunk.elements =
        [(m3, ⟨m3, STONE_BLOCK⟩), (pSwap, ⟨pSwap, STONE_BLOCK⟩)] from rfl,
      List.take_of_length_le (by norm_num [MAX_ELEMENTS])]
    simp
  · rw [if_neg (by simp [STONE_BLOCK, AIR_BLOCK])]
    refine List.mem_map.mpr ⟨0, List.mem_filter.mpr ⟨by simp [finFourList], ?_⟩, rfl⟩
    rw [ChunkMesher.shouldRenderFace]
    simp [swap_neighbor0_is_air, AIR_BLOCK]

/-- C5 (amended): among the first `MAX_ELEMENTS + 1 = 10001` elements of
the chunk's element list, for each loop index `i` the mesher emits the
triangle made of the three vertices other than `i` iff the block at
`getNeighbors pos i` — the reflection across `getFaces(i)`, resolved
through the World across chunk boundaries — is air or registered
transparent; and the mesh's vertex list is exactly the concatenation of
the emitted faces' vertex triples. Note the index pairing: the drawn
triangle at loop index `i` is the face opposite vertex `i`, while
`getFaces` lists `{0,1,2}, {0,2,3}, {0,3,1}, {1,3,2}` — the face opposite
vertex `3, 1, 2, 0` respectively — so only for `i ∈ {1, 2}` is the gate
the drawn triangle's own neighbor; for `i ∈ {0, 3}` each face is gated on
the other's neighbor (see the counterexample). -/
theorem face_emitted_iff_neighbor_air_or_transparent (w : World) (ch : TetraChunk)
    (pos : Quadray) (element : TetrahedralElement) (i : Fin 4)
    (hmem : (pos, element) ∈ ch.elements.take (MAX_ELEMENTS + 1))
    (hair : element.blockId ≠ AIR_BLOCK) :
    ((pos, element, i) ∈ emittedFaces w ch ch.elements ↔
      (ChunkMesher.getBlockAt w ch (TetraChunk.getNeighbors pos i) = AIR_BLOCK ∨
        (w.blockRegistry.getBlock
          (ChunkMesher.getBlockAt w ch (TetraChunk.getNeighbors pos i))).transparent =
          true)) ∧
    (createMeshForChunk w ch).1 =
      (emittedFaces w ch ch.elements).flatMap
        (fun t => faceVerticesOf t.1 t.2.1 t.2.2) := by
  refine ⟨?_, mesh_vertices_eq_emitted w ch⟩
  have hcond : ∀ q : Quadray, ChunkMesher.shouldRenderFace w ch q = true ↔
      (ChunkMesher.getBlockAt w ch q = AIR_BLOCK ∨
        (w.blockRegistry.getBlock (ChunkMesher.getBlockAt w ch q)).transparent = true) := by
    intro q
    simp [ChunkMesher.shouldRenderFace]
  constructor
  · intro hmem'
    rw [emittedFaces] at hmem'
    obtain ⟨pe, hpe, hin⟩ := List.mem_flatMap.mp hmem'
    by_cases ha : pe.2.blockId = AIR_BLOCK
    · rw [if_pos ha] at hin
      simp at hin
    · rw [if_neg ha] at hin
      obtain ⟨j, hj, hjeq⟩ := List.mem_map.mp hin
      have hfil := List.mem_filter.mp hj
      have h1 : pe.1 = pos := congrArg (fun t => t.1) hjeq
      have hji : j = i := congrArg (fun t => t.2.2) hjeq
      rw [← h1, ← hji]
      exact (hcond _).mp hfil.2
  · intro hcnd
    rw [emittedFaces]
    refine List.mem_flatMap.mpr ⟨(pos, element), hmem, ?_⟩
    rw [if_neg hair]
    refine List.mem_map.mpr ⟨i, List.mem_filter.mpr ⟨?_, (hcond _).mpr hcnd⟩, rfl⟩
    fin_cases i <;> simp [finFourList]

/-- C5 (witness): a single stone element in an otherwise empty world — its
face `0` is emitted, and indeed the neighbor lookup resolves to air. -/
theorem face_emitted_iff_witness :
    (((⟨0, 0, 0, 0⟩ : Quadray), (⟨⟨0, 0, 0, 0⟩, STONE_BLOCK⟩ : TetrahedralElement),
        (0 : Fin 4)) ∈
      emittedFaces World.empty
        { TetraChunk.new 0 0 0 with
            elements := [(⟨0, 0, 0, 0⟩, ⟨⟨0, 0, 0, 0⟩, STONE_BLOCK⟩)] }
        { TetraChunk.new 0 0 0 with
            elements := [(⟨0, 0, 0, 0⟩, ⟨⟨0, 0, 0, 0⟩, STONE_BLOCK⟩)] }.elements ↔
      (ChunkMesher.getBlockAt World.empty
          { TetraChunk.new 0 0 0 with
              elements := [(⟨0, 0, 0, 0⟩, ⟨⟨0, 0, 0, 0⟩, STONE_BLOCK⟩)] }
          (TetraChunk.getNeighbors ⟨0, 0, 0, 0⟩ 0) = AIR_BLOCK ∨
        (World.empty.blockRegistry.getBlock
          (ChunkMesher.getBlockAt World.empty
            { TetraChunk.new 0 0 0 with
                elements := [(⟨0, 0, 0, 0⟩, ⟨⟨0, 0, 0, 0⟩, STONE_BLOCK⟩)] }
            (TetraChunk.getNeighbors ⟨0, 0, 0, 0⟩ 0))).transparent = true)) ∧
    (createMeshForChunk World.empty
        { TetraChunk.new 0 0 0 with
            elements := [(⟨0, 0, 0, 0⟩, ⟨⟨0, 0, 0, 0⟩, STONE_BLOCK⟩)] }).1 =
      (emittedFaces World.empty
          { TetraChunk.new 0 0 0 with
              elements := [(⟨0, 0, 0, 0⟩, ⟨⟨0, 0, 0, 0⟩, STONE_BLOCK⟩)] }
          { TetraChunk.new 0 0 0 with
              elements := [(⟨0, 0, 0, 0⟩, ⟨⟨0, 0, 0, 0⟩, STONE_BLOCK⟩)] }.elements).flatMap
        (fun t => faceVerticesOf t.1 t.2.1 t.2.2) :=
  face_emitted_iff_neighbor_air_or_transparent World.empty _ _ _ 0
    (by simp [MAX_ELEMENTS]) (by simp [STONE_BLOCK, AIR_BLOCK])

/-- A chunk with `10002` stone elements at pairwise distinct lattice keys
`(n, 0, 0, 0)`, `n = 0, ..., 10001` (kept irreducible so the elaborator
never tries to evaluate the `10002`-element list). -/
@[irreducible] def bigElements : List (Quadray × TetrahedralElement) :=
  (List.range 10002).map (fun n =>
    (⟨((n : ℕ) : ℚ), 0, 0, 0⟩, ⟨⟨((n : ℕ) : ℚ), 0, 0, 0⟩, STONE_BLOCK⟩))

theorem bigElements_def :
    bigElements = (List.range 10002).map (fun n =>
      (⟨((n : ℕ) : ℚ), 0, 0, 0⟩, ⟨⟨((n : ℕ) : ℚ), 0, 0, 0⟩, STONE_BLOCK⟩)) := by
  unfold bigElements
  exact rfl

def bigChunk : TetraChunk := { TetraChunk.new 0 0 0 with elements := bigElements }

/-- The key of the `10002`-nd element of `bigChunk` — the first element the
mesher's `MAX_ELEMENTS` break discards. -/
def bigPos : Quadray := ⟨((10001 : ℕ) : ℚ), 0, 0, 0⟩

def bigElem : TetrahedralElement := ⟨bigPos, STONE_BLOCK⟩

/-- C5 (counterexample, part 1 — truncation): in an empty world every
neighbor of the `10002`-nd element of `bigChunk` is air, so the claim
demands its faces be emitted; but the mesher stops after `10001` elements,
and face `0` of that element is not emitted (the mesh's vertex list being
exactly the emitted faces' vertices). Part 2 — the face/neighbor index
swap: the triangle the mesher draws at loop index `0` is the face opposite
vertex `0`, which is `getFaces(3) = {1,3,2}` and not `getFaces(0) =
{0,1,2}`; yet the emission gate for loop index `0` tests
`getNeighbors(pos)[0]`, the reflection across `getFaces(0)`. In
`swapWorld` the element at `pSwap` has stone directly across its drawn
index-`0` triangle (the lookup at `getNeighbors pSwap 3` resolves to the
stone stored at `m3`, and stone is opaque and non-air), yet the face IS
emitted, because the gate instead looked across `getFaces(0)` — into the
unloaded chunk `(1,0,0)`, where the lookup returns air. So "a face is
emitted iff THAT face's neighbor is air or transparent" is false in the
code on both counts. -/
theorem face_visibility_rule_counterexample :
    ((bigPos, bigElem) ∈ bigChunk.elements ∧
     bigElem.blockId ≠ AIR_BLOCK ∧
     ChunkMesher.getBlockAt World.empty bigChunk (TetraChunk.getNeighbors bigPos 0) =
       AIR_BLOCK ∧
     (bigPos, bigElem, (0 : Fin 4)) ∉ emittedFaces World.empty bigChunk bigChunk.elements ∧
     (createMeshForChunk World.empty bigChunk).1 =
       (emittedFaces World.empty bigChunk bigChunk.elements).flatMap
         (fun t => faceVerticesOf t.1 t.2.1 t.2.2)) ∧
    (({meshFaceIndices 0 0, meshFaceIndices 0 1, meshFaceIndices 0 2} : Finset (Fin 4)) =
       {TetrahedralElement.getFaces 3 0, TetrahedralElement.getFaces 3 1,
        TetrahedralElement.getFaces 3 2} ∧
     ({meshFaceIndices 0 0, meshFaceIndices 0 1, meshFaceIndices 0 2} : Finset (Fin 4)) ≠
       {TetrahedralElement.getFaces 0 0, TetrahedralElement.getFaces 0 1,
        TetrahedralElement.getFaces 0 2} ∧
     (pSwap, (⟨pSwap, STONE_BLOCK⟩ : TetrahedralElement), (0 : Fin 4)) ∈
       emittedFaces swapWorld swapChunk swapChunk.elements ∧
     ChunkMesher.getBlockAt swapWorld swapChunk (TetraChunk.getNeighbors pSwap 3) =
       STONE_BLOCK ∧
     STONE_BLOCK ≠ AIR_BLOCK ∧
     (swapWorld.blockRegistry.getBlock STONE_BLOCK).transparent = false ∧
     (createMeshForChunk swapWorld swapChunk).1 =
       (emittedFaces swapWorld swapChunk swapChunk.elements).flatMap
         (fun t => faceVerticesOf t.1 t.2.1 t.2.2)) := by
  refine ⟨⟨?_, by simp [bigElem, STONE_BLOCK, AIR_BLOCK],
    by rw [ChunkMesher.getBlockAt]; exact getBlock_empty_world _, ?_,
    mesh_vertices_eq_emitted World.empty bigChunk⟩,
    by decide, by decide, swap_face0_emitted, swap_neighbor3_is_stone,
    by simp [STONE_BLOCK, AIR_BLOCK], rfl,
    mesh_vertices_eq_emitted swapWorld swapChunk⟩
  · show (bigPos, bigElem) ∈ bigElements
    rw [bigElements_def]
    exact List.mem_map.mpr ⟨10001, List.mem_range.mpr (by norm_num), rfl⟩
  · intro hmem
    rw [emittedFaces] at hmem
    have htake : bigChunk.elements.take (MAX_ELEMENTS + 1) =
        (List.range 10001).map (fun n =>
          ((⟨((n : ℕ) : ℚ), 0, 0, 0⟩ : Quadray),
           (⟨⟨((n : ℕ) : ℚ), 0, 0, 0⟩, STONE_BLOCK⟩ : TetrahedralElement))) := by
      show bigElements.take (MAX_ELEMENTS + 1) = _
      rw [bigElements_def, ← List.map_take, List.take_range]
      norm_num [MAX_ELEMENTS]
    rw [htake] at hmem
    obtain ⟨pe, hpe, hin⟩ := List.mem_flatMap.mp hmem
    obtain ⟨n, hn, rfl⟩ := List.mem_map.mp hpe
    rw [if_neg (by simp [STONE_BLOCK, AIR_BLOCK])] at hin
    obtain ⟨j, hj, hjeq⟩ := List.mem_map.mp hin
    have h1 : (⟨((n : ℕ) : ℚ), 0, 0, 0⟩ : Quadray) = bigPos :=
      congrArg (fun t => t.1) hjeq
    have h2 : ((n : ℕ) : ℚ) = ((10001 : ℕ) : ℚ) := congrArg Quadray.a h1
    have h3 : n = 10001 := Nat.cast_injective h2
    have h4 : n < 10001 := List.mem_range.mp hn
    omega

/-- C3 (amended): the mesh output is a deterministic function of the
chunk's element list in its iteration order — and for two chunks that
agree except for a permutation of at most `10001` elements, the emitted
vertex lists are permutations of each other (though not necessarily in the
same order, as the counterexample shows). -/
theorem mesh_perm_of_elements_perm (w : World) (ch : TetraChunk)
    (l2 : List (Quadray × TetrahedralElement))
    (hperm : ch.elements.Perm l2) (hlen : ch.elements.length ≤ MAX_ELEMENTS + 1) :
    ((createMeshForChunk w ch).1).Perm
      ((createMeshForChunk w { ch with elements := l2 }).1) := by
  rw [mesh_vertices_eq_emitted, mesh_vertices_eq_emitted]
  have hkey : ∀ l, emittedFaces w { ch with elements := l2 } l = emittedFaces w ch l :=
    fun l => rfl
  rw [hkey]
  show ((emittedFaces w ch ch.elements).flatMap _).Perm
    ((emittedFaces w ch l2).flatMap _)
  rw [emittedFaces, emittedFaces, List.take_of_length_le hlen,
    List.take_of_length_le (hperm.length_eq ▸ hlen)]
  exact (hperm.flatMap_right _).flatMap_right _

theorem faceVerticesOf_zero_head_x (pos : Quadray) (el : TetrahedralElement)
    (r : List Vertex) :
    ((faceVerticesOf pos el 0 ++ r).head?.map (fun v => v.position.x)) =
      some (el.position.toCartesian.x + 199 / 600) := by
  have hfj : meshFaceIndices 0 0 = (1 : Fin 4) := rfl
  have hv0 : el.getVertices 0 = el.position.toCartesian + ⟨0, 1/2, 0⟩ := rfl
  have hv1 : el.getVertices 1 =
      el.position.toCartesian + ⟨2 * (1/2) / 3, -(1/2) / 3, 0⟩ := rfl
  have hv2 : el.getVertices 2 = el.position.toCartesian +
      ⟨-(1/2) / 3, -(1/2) / 3, 1414213562/1000000000 * (1/2) / 3⟩ := rfl
  have hv3 : el.getVertices 3 = el.position.toCartesian +
      ⟨-(1/2) / 3, -(1/2) / 3, -(1414213562/1000000000) * (1/2) / 3⟩ := rfl
  simp only [faceVerticesOf, hfj, hv0, hv1, hv2, hv3, List.cons_append,
    List.head?_cons, Option.map_some', Vector3.add_x, Vector3.sub_x,
    Vector3.smul_x, Vector3.sdiv_x]
  congr 1
  ring

/-- Two chunks holding the same two stone elements in opposite list
order. -/
def chunkAB : TetraChunk :=
  { TetraChunk.new 0 0 0 with
      elements := [(⟨0, 0, 0, 0⟩, ⟨⟨0, 0, 0, 0⟩, STONE_BLOCK⟩),
                   (⟨1, 0, 0, 0⟩, ⟨⟨1, 0, 0, 0⟩, STONE_BLOCK⟩)] }

def chunkBA : TetraChunk :=
  { TetraChunk.new 0 0 0 with
      elements := [(⟨1, 0, 0, 0⟩, ⟨⟨1, 0, 0, 0⟩, STONE_BLOCK⟩),
                   (⟨0, 0, 0, 0⟩, ⟨⟨0, 0, 0, 0⟩, STONE_BLOCK⟩)] }

/-- C3 (witness): the permutation statement instantiated at the two
concrete two-element chunks. -/
theorem mesh_perm_of_elements_perm_witness :
    ((createMeshForChunk World.empty chunkAB).1).Perm
      ((createMeshForChunk World.empty
        { chunkAB with elements := chunkBA.elements }).1) :=
  mesh_perm_of_elements_perm World.empty chunkAB chunkBA.elements
    (List.Perm.swap _ _ _) (by simp [chunkAB, MAX_ELEMENTS])

/-- C3 (counterexample): `chunkAB` and `chunkBA` hold the same element
contents as a set (their element lists are permutations), the neighboring
world is identical (empty), yet `createMeshForChunk` produces different
vertex lists — the output order follows the unordered map's iteration
order, not a canonical order. -/
theorem mesh_determinism_counterexample :
    chunkAB.elements.Perm chunkBA.elements ∧
    (createMeshForChunk World.empty chunkAB).1 ≠
      (createMeshForChunk World.empty chunkBA).1 := by
  constructor
  · exact List.Perm.swap _ _ _
  · intro heq
    have h := congrArg
      (fun l : List Vertex => (l.head?.map (fun v => v.position.x))) heq
    rw [mesh_vertices_eq_emitted, mesh_vertices_eq_emitted] at h
    simp only [emittedFaces, chunkAB, chunkBA, MAX_ELEMENTS] at h
    rw [List.take_of_length_le (by norm_num), List.take_of_length_le (by norm_num)] at h
    simp only [List.flatMap_cons, List.flatMap_nil, shouldRenderFace_empty_world,
      List.filter_true, finFourList, List.map_cons, List.map_nil, List.append_nil,
      List.cons_append, List.head?_cons, Option.map_some] at h
    rw [if_neg (by simp [STONE_BLOCK, AIR_BLOCK]),
      if_neg (by simp [STONE_BLOCK, AIR_BLOCK])] at h
    simp only [List.flatMap_cons, List.flatMap_nil, List.nil_append,
      List.append_nil, List.cons_append] at h
    rw [faceVerticesOf_zero_head_x, faceVerticesOf_zero_head_x, Option.some_inj] at h
    norm_num [Quadray.toCartesian, ROOT2] at h

end QuadCraft
